import Mathlib

/-!
Verification development for the RF Signal Processing Engine
(Second-Sight RF Tools).  The Python sources under `server/` are embedded
shallowly: machine floats become exact reals, NumPy arrays become lists,
fallible code returns `Option`/`Except`, and the ZeroMQ service loop's
per-request dispatcher becomes a pure state-passing function.
-/

namespace SecondSight

noncomputable section

/-! ## JSON-lite values (serialization boundary of `gpu_service.py`) -/

/-- Model of a JSON value as produced by the service.  Numbers are exact
reals (the floats of the Python code under exact arithmetic). -/
inductive JVal where
  | num (x : ℝ)
  | str (s : String)
  | bool (b : Bool)
  | null
  | arr (l : List JVal)
  | obj (l : List (String × JVal))

/-- Model of a Python dict used as a JSON object: an association list whose
keys are unique by construction. -/
abbrev RespObj := List (String × JVal)

/-- Dictionary lookup, first binding wins (Python dict access). -/
def jGet (k : String) : RespObj → Option JVal
  | [] => none
  | (k', v) :: rest => if k' = k then some v else jGet k rest

/-- Dictionary assignment `d[k] = v`: replace the existing binding,
else append (Python dict assignment). -/
def jSet (k : String) (v : JVal) : RespObj → RespObj
  | [] => [(k, v)]
  | (k', v') :: rest => if k' = k then (k, v) :: rest else (k', v') :: jSet k v rest

/-- Lookup with a default value, i.e. Python's `d.get(k, default)`. -/
def jGetD (o : RespObj) (k : String) (d : JVal) : JVal :=
  match jGet k o with
  | some v => v
  | none => d

/-- Numeric lookup with default: `d.get(k, default)` used in a numeric
position (a non-numeric value is mapped to the default; in Python that
case would raise inside the subsequent arithmetic). -/
def jGetNum (o : RespObj) (k : String) (d : ℝ) : ℝ :=
  match jGet k o with
  | some (JVal.num x) => x
  | _ => d

/-- ASCII lowercase of one character; Python's `str.lower()` restricted to
the ASCII command strings the service actually dispatches on. -/
def lowerChar (c : Char) : Char :=
  if 65 ≤ c.toNat ∧ c.toNat ≤ 90 then Char.ofNat (c.toNat + 32) else c

/-- ASCII `str.lower()` from `request.get('command', '').lower()`. -/
def lowerStr (s : String) : String := ⟨s.data.map lowerChar⟩

/-! ## Service statistics (`GPUServiceStats` in `gpu_service.py`) -/

/-- State of `GPUServiceStats`: monotonic counters plus wall-clock fields. -/
structure ServiceStats where
  requests_total : ℕ
  requests_success : ℕ
  requests_failed : ℕ
  bytes_processed : ℕ
  start_time : ℝ
  last_request_time : Option ℝ

/-- Embedding of `GPUServiceStats.record_request`; `now` stands for the
`time.time()` call made inside it. -/
def record_request (s : ServiceStats) (success : Bool) (bytes : ℕ) (now : ℝ) :
    ServiceStats :=
  { s with
    requests_total := s.requests_total + 1
    requests_success := if success then s.requests_success + 1 else s.requests_success
    requests_failed := if success then s.requests_failed else s.requests_failed + 1
    bytes_processed := s.bytes_processed + bytes
    last_request_time := some now }

/-- Embedding of `GPUServiceStats.to_dict`; `now` stands for the
`time.time()` calls made inside it. -/
def statsToDict (s : ServiceStats) (now : ℝ) : RespObj :=
  let uptime : ℝ := now - s.start_time
  [("requests_total", JVal.num s.requests_total),
   ("requests_success", JVal.num s.requests_success),
   ("requests_failed", JVal.num s.requests_failed),
   ("bytes_processed", JVal.num s.bytes_processed),
   ("uptime_seconds", JVal.num uptime),
   ("requests_per_second", JVal.num (if 0 < uptime then s.requests_total / uptime else 0)),
   ("last_request_ago",
     match s.last_request_time with
     | some t => JVal.num (now - t)
     | none => JVal.null)]

/-! ## Requests and the processor interface -/

/-- Typed view of the `params` object of a request: each field is the
optional value of the corresponding JSON key, so `params.get(k, d)`
becomes `field.getD d`. -/
structure ReqParams where
  fft_size : Option ℕ := none
  overlap : Option ℝ := none
  window : Option String := none
  sample_rate : Option ℝ := none
  nfft : Option ℕ := none
  alpha_max : Option ℝ := none
  num_time_points : Option ℕ := none
  smoothing : Option Bool := none
  smooth_window : Option ℕ := none
  sigma : Option ℝ := none
  regions : Option ℕ := none
  orders : Option (List ℕ) := none

/-- Incoming request envelope.  `iq` is the decoded complex block
`iq_real + 1j*iq_imag` when both `iq_real` and `iq_imag` are present, and
`none` when at least one of them is missing. -/
structure Request where
  command : String
  iq : Option (List ℂ)
  params : ReqParams := {}

/-- Result of `fam_scf` as consumed by `_handle_fam`. -/
structure FamOut where
  scf_magnitude : List (List ℝ)
  spectral_freqs : List ℝ
  cyclic_freqs : List ℝ
  cyclic_profile : List ℝ

/-- Result of `wigner_ville` / `choi_williams` as consumed by the service:
a magnitude matrix plus its two axes. -/
structure TfdOut where
  mat : List (List ℝ)
  time_axis : List ℝ
  freq_axis : List ℝ

/-- Result of `rf_dna_features` as consumed by `_handle_rf_dna`. -/
structure RfDnaOut where
  features : List ℝ
  feature_count : ℕ
  regions : ℕ

/-- Interface of `GPUSignalProcessor` as seen from the service dispatcher.
Each kernel either returns its value or raises (`Except.error` carries the
formatted exception message caught by `handle_request`). -/
structure ProcBehavior where
  memoryInfo : RespObj
  psd_welch : List ℂ → ℕ → ℝ → String → Except String (List ℝ)
  fam_scf : List ℂ → ℝ → ℕ → ℝ → ℝ → Except String FamOut
  wigner_ville : List ℂ → ℕ → Option ℕ → Bool → ℕ → Except String TfdOut
  choi_williams : List ℂ → ℕ → ℝ → Option ℕ → Except String TfdOut
  rf_dna_features : List ℂ → ℕ → Except String RfDnaOut
  higher_order_cumulants : List ℂ → List ℕ → Except String RespObj

/-! ## Command handlers (`GPUService._handle_*`) -/

/-- Embedding of `GPUService._handle_ping`; `now` stands for the clock
read inside `stats.to_dict`. -/
def handlePing (proc : ProcBehavior) (s : ServiceStats) (now : ℝ) : RespObj :=
  let mi := proc.memoryInfo
  [("status", JVal.str "ok"),
   ("gpu_available", jGetD mi "gpu_available" (JVal.bool false)),
   ("gpu_memory_used_mb", JVal.num (jGetNum mi "used_bytes" 0 / 1000000)),
   ("stats", JVal.obj (statsToDict s now))]

/-- Embedding of `GPUService._handle_psd`. -/
def handlePsd (proc : ProcBehavior) (iq : Option (List ℂ)) (p : ReqParams) :
    Except String RespObj :=
  match iq with
  | none => Except.ok [("error", JVal.str "Missing IQ data")]
  | some samples => do
    let psd ← proc.psd_welch samples (p.fft_size.getD 1024) (p.overlap.getD (1/2))
      (p.window.getD "hann")
    Except.ok
      [("psd", JVal.arr (psd.map JVal.num)),
       ("fft_size", JVal.num (p.fft_size.getD 1024)),
       ("num_bins", JVal.num psd.length)]

/-- Embedding of `GPUService._handle_fam`. -/
def handleFam (proc : ProcBehavior) (iq : Option (List ℂ)) (p : ReqParams) :
    Except String RespObj :=
  match iq with
  | none => Except.ok [("error", JVal.str "Missing IQ data")]
  | some samples => do
    let r ← proc.fam_scf samples (p.sample_rate.getD 1000000) (p.nfft.getD 256)
      (p.overlap.getD (1/2)) (p.alpha_max.getD (1/2))
    Except.ok
      [("scf_magnitude", JVal.arr (r.scf_magnitude.map (fun row => JVal.arr (row.map JVal.num)))),
       ("spectral_freqs", JVal.arr (r.spectral_freqs.map JVal.num)),
       ("cyclic_freqs", JVal.arr (r.cyclic_freqs.map JVal.num)),
       ("cyclic_profile", JVal.arr (r.cyclic_profile.map JVal.num)),
       ("shape", JVal.arr [JVal.num r.scf_magnitude.length,
                           JVal.num ((r.scf_magnitude.headD []).length)])]

/-- Embedding of `GPUService._handle_wvd`. -/
def handleWvd (proc : ProcBehavior) (iq : Option (List ℂ)) (p : ReqParams) :
    Except String RespObj :=
  match iq with
  | none => Except.ok [("error", JVal.str "Missing IQ data")]
  | some samples => do
    let r ← proc.wigner_ville samples (p.nfft.getD 256) p.num_time_points
      (p.smoothing.getD false) (p.smooth_window.getD 16)
    Except.ok
      [("wvd", JVal.arr (r.mat.map (fun row => JVal.arr (row.map JVal.num)))),
       ("time_axis", JVal.arr (r.time_axis.map JVal.num)),
       ("freq_axis", JVal.arr (r.freq_axis.map JVal.num)),
       ("shape", JVal.arr [JVal.num r.mat.length, JVal.num ((r.mat.headD []).length)])]

/-- Embedding of `GPUService._handle_cwd`. -/
def handleCwd (proc : ProcBehavior) (iq : Option (List ℂ)) (p : ReqParams) :
    Except String RespObj :=
  match iq with
  | none => Except.ok [("error", JVal.str "Missing IQ data")]
  | some samples => do
    let r ← proc.choi_williams samples (p.nfft.getD 256) (p.sigma.getD 1) p.num_time_points
    Except.ok
      [("cwd", JVal.arr (r.mat.map (fun row => JVal.arr (row.map JVal.num)))),
       ("time_axis", JVal.arr (r.time_axis.map JVal.num)),
       ("freq_axis", JVal.arr (r.freq_axis.map JVal.num)),
       ("shape", JVal.arr [JVal.num r.mat.length, JVal.num ((r.mat.headD []).length)])]

/-- Embedding of `GPUService._handle_rf_dna`. -/
def handleRfDna (proc : ProcBehavior) (iq : Option (List ℂ)) (p : ReqParams) :
    Except String RespObj :=
  match iq with
  | none => Except.ok [("error", JVal.str "Missing IQ data")]
  | some samples => do
    let r ← proc.rf_dna_features samples (p.regions.getD 20)
    Except.ok
      [("features", JVal.arr (r.features.map JVal.num)),
       ("feature_count", JVal.num r.feature_count),
       ("regions", JVal.num r.regions)]

/-- Embedding of `GPUService._handle_cumulants`. -/
def handleCumulants (proc : ProcBehavior) (iq : Option (List ℂ)) (p : ReqParams) :
    Except String RespObj :=
  match iq with
  | none => Except.ok [("error", JVal.str "Missing IQ data")]
  | some samples => proc.higher_order_cumulants samples (p.orders.getD [4, 6])

/-! ## The request dispatcher (`GPUService.handle_request`) -/

/-- Dispatch table of `handle_request`: `none` means the final
unknown-command branch was reached. -/
def dispatch (proc : ProcBehavior) (cmd : String) (iq : Option (List ℂ))
    (p : ReqParams) (s : ServiceStats) (tNow : ℝ) : Option (Except String RespObj) :=
  if cmd = "ping" then some (Except.ok (handlePing proc s tNow))
  else if cmd = "psd" then some (handlePsd proc iq p)
  else if cmd = "fam" then some (handleFam proc iq p)
  else if cmd = "wvd" then some (handleWvd proc iq p)
  else if cmd = "cwd" then some (handleCwd proc iq p)
  else if cmd = "rf_dna" then some (handleRfDna proc iq p)
  else if cmd = "cumulants" then some (handleCumulants proc iq p)
  else if cmd = "memory" then some (Except.ok proc.memoryInfo)
  else if cmd = "cleanup" then
    some (Except.ok [("status", JVal.str "ok"), ("message", JVal.str "GPU memory cleared")])
  else if cmd = "stats" then some (Except.ok (statsToDict s tNow))
  else none

/-- Embedding of `GPUService.handle_request`.  `tStart` is the clock at
entry, `tNow` the clock read inside ping/stats handlers, `tEnd` the clock
at the `processing_time_ms` computation and the statistics update.
Returns the JSON response together with the updated statistics. -/
def handle_request (proc : ProcBehavior) (req : Request) (s : ServiceStats)
    (tStart tNow tEnd : ℝ) : RespObj × ServiceStats :=
  let cmd := lowerStr req.command
  let bytes : ℕ := match req.iq with
    | some l => 8 * l.length
    | none => 0
  match dispatch proc cmd req.iq req.params s tNow with
  | none =>
    ([("error", JVal.str ("Unknown command: " ++ cmd))],
     record_request s false 0 tEnd)
  | some (Except.ok result) =>
    (jSet "processing_time_ms" (JVal.num ((tEnd - tStart) * 1000)) result,
     record_request s true bytes tEnd)
  | some (Except.error e) =>
    ([("error", JVal.str e), ("command", JVal.str cmd),
      ("processing_time_ms", JVal.num ((tEnd - tStart) * 1000))],
     record_request s false 0 tEnd)

/-- Commands recognized by the dispatcher. -/
def knownCommands : List String :=
  ["ping", "psd", "fam", "wvd", "cwd", "rf_dna", "cumulants", "memory", "cleanup", "stats"]

/-- Statistics of a freshly constructed service (all counters zero),
started at clock 0. -/
def freshStats : ServiceStats :=
  { requests_total := 0, requests_success := 0, requests_failed := 0,
    bytes_processed := 0, start_time := 0, last_request_time := none }

/-- Concrete processor behavior used to close example statements: the
CPU-mode `get_memory_info` dictionary, with every kernel entry point
raising (as when CuPy is absent and a kernel is exercised in a way that
fails); the statements that use it never reach the kernels. -/
def cpuErrBehavior : ProcBehavior where
  memoryInfo :=
    [("gpu_available", JVal.bool false), ("device_id", JVal.num (-1)),
     ("used_bytes", JVal.num 0), ("total_bytes", JVal.num 0)]
  psd_welch := fun _ _ _ _ => Except.error "ValueError"
  fam_scf := fun _ _ _ _ _ => Except.error "ValueError"
  wigner_ville := fun _ _ _ _ _ => Except.error "ValueError"
  choi_williams := fun _ _ _ _ => Except.error "ValueError"
  rf_dna_features := fun _ _ => Except.error "ValueError"
  higher_order_cumulants := fun _ _ => Except.error "ValueError"

/-- The `requests_total` number inside the `stats` object of a response,
when present. -/
def respStatsTotal (o : RespObj) : Option ℝ :=
  match jGet "stats" o with
  | some (JVal.obj d) =>
    match jGet "requests_total" d with
    | some (JVal.num x) => some x
    | _ => none
  | _ => none

/-! ## Numeric primitives shared by the kernels -/

/-- Python's `int()` conversion of a float: truncation toward zero. -/
def pytrunc (x : ℝ) : ℤ := if 0 ≤ x then ⌊x⌋ else ⌈x⌉

/-- NumPy's `mod` on reals (sign of the result follows the divisor, here
always used with a positive divisor). -/
def fmod (x y : ℝ) : ℝ := x - y * ⌊x / y⌋

/-- NumPy's `mean` of a real vector (`sum/len`; NumPy yields NaN on an
empty vector, here the junk value `0`, never relied upon). -/
def mean (l : List ℝ) : ℝ := l.sum / l.length

/-- NumPy's `mean` of a complex vector. -/
def cmean (l : List ℂ) : ℂ := l.sum / (l.length : ℂ)

/-- NumPy's `max` of a vector, which raises on an empty input. -/
def listMax : List ℝ → Option ℝ
  | [] => none
  | x :: xs => some (xs.foldl max x)

/-- Forward DFT, the semantics of `fft.fft` on one axis:
`X_k = sum_n x_n exp(-2*pi*i*k*n/N)`. -/
def dft (x : List ℂ) : List ℂ :=
  (List.range x.length).map fun k : ℕ =>
    ((List.range x.length).map fun n : ℕ =>
      x.getD n 0 * Complex.exp (-(2 * Real.pi * Complex.I * k * n) / x.length)).sum

/-- NumPy's `fft.fftshift`: roll by `len/2`, moving DC to the center. -/
def fftshift {α : Type} (l : List α) : List α :=
  l.drop (l.length - l.length / 2) ++ l.take (l.length - l.length / 2)

/-- NumPy's `fft.fftfreq(m, d)`: bin `i` maps to `i/(m*d)` for the first
half and `(i-m)/(m*d)` for the second. -/
def fftfreq (m : ℕ) (d : ℝ) : List ℝ :=
  (List.range m).map fun i : ℕ =>
    (if i < (m + 1) / 2 then (i : ℝ) else (i : ℝ) - m) / (m * d)

/-- NumPy broadcasting of an elementwise complex-by-real product of two
1-D arrays: legal when the lengths agree or either length is 1; any other
combination raises a broadcasting `ValueError`. -/
def bmul (a : List ℂ) (w : List ℝ) : Option (List ℂ) :=
  if a.length = w.length then some (List.zipWith (fun z (r : ℝ) => z * (r : ℂ)) a w)
  else if a.length = 1 then some (w.map (fun r : ℝ => a.headD 0 * (r : ℂ)))
  else if w.length = 1 then some (a.map (fun z : ℂ => z * ((w.headD 0 : ℝ) : ℂ)))
  else none

/-! ## Window functions (`GPUSignalProcessor._get_window`) -/

/-- NumPy `hanning(M)` taps (symmetric cosine form of the NumPy source). -/
def np_hanning : ℕ → List ℝ
  | 0 => []
  | 1 => [1]
  | (m + 2) =>
    (List.range (m + 2)).map fun i : ℕ =>
      1/2 + 1/2 * Real.cos (Real.pi * (2 * (i : ℝ) - (m + 1)) / (m + 1))

/-- NumPy `hamming(M)` taps. -/
def np_hamming : ℕ → List ℝ
  | 0 => []
  | 1 => [1]
  | (m + 2) =>
    (List.range (m + 2)).map fun i : ℕ =>
      0.54 + 0.46 * Real.cos (Real.pi * (2 * (i : ℝ) - (m + 1)) / (m + 1))

/-- NumPy `blackman(M)` taps. -/
def np_blackman : ℕ → List ℝ
  | 0 => []
  | 1 => [1]
  | (m + 2) =>
    (List.range (m + 2)).map fun i : ℕ =>
      0.42 + 0.5 * Real.cos (Real.pi * (2 * (i : ℝ) - (m + 1)) / (m + 1)) +
        0.08 * Real.cos (2 * Real.pi * (2 * (i : ℝ) - (m + 1)) / (m + 1))

/-- Modified Bessel function of the first kind, order zero, as the power
series NumPy's `i0` computes. -/
def besselI0 (x : ℝ) : ℝ :=
  tsum fun k : ℕ => (x / 2) ^ (2 * k) / ((Nat.factorial k : ℝ)) ^ 2

/-- NumPy `kaiser(M, beta)` taps. -/
def np_kaiser (M : ℕ) (beta : ℝ) : List ℝ :=
  match M with
  | 0 => []
  | 1 => [1]
  | _ =>
    (List.range M).map fun i : ℕ =>
      besselI0 (beta * Real.sqrt (1 - (((i : ℝ) - (M - 1 : ℕ) / 2) / ((M - 1 : ℕ) / 2)) ^ 2)) /
        besselI0 beta

/-- Embedding of `GPUSignalProcessor._get_window`: the four cached window
families keyed by name; an unknown name raises `ValueError`. -/
def get_window (window_type : String) (size : ℕ) : Option (List ℝ) :=
  if window_type = "hann" then some (np_hanning size)
  else if window_type = "hamming" then some (np_hamming size)
  else if window_type = "blackman" then some (np_blackman size)
  else if window_type = "kaiser" then some (np_kaiser size 14)
  else none

/-! ## Welch PSD (`GPUSignalProcessor.psd_welch`) -/

/-- Embedding of `GPUSignalProcessor.psd_welch`.  `none` captures the
Python exceptions: division by zero when the hop is 0, an unknown window
name, and the broadcasting error when a block shorter than `fft_size`
(other than length 1) meets the `fft_size`-long window. -/
def psd_welch (iq : List ℂ) (fft_size : ℕ) (overlap : ℝ) (window : String)
    (detrend : Bool) : Option (List ℝ) :=
  let n := iq.length
  let hop : ℤ := pytrunc (fft_size * (1 - overlap))
  if hop = 0 then none
  else
    let num_segments : ℤ := max 1 (((n : ℤ) - fft_size).fdiv hop + 1)
    match get_window window fft_size with
    | none => none
    | some win =>
      let win_power := (win.map (fun w => w ^ 2)).sum
      let x := if detrend then iq.map (fun z => z - cmean iq) else iq
      if num_segments = 1 then
        match bmul (x.take fft_size) win with
        | none => none
        | some segment =>
          let spectrum := dft segment
          let psd := spectrum.map (fun z => Complex.abs z ^ 2 / win_power)
          some (fftshift (psd.map (fun p => 10 * Real.logb 10 (p + 1e-12))))
      else
        let idxs := (List.range num_segments.toNat).filter
          (fun i : ℕ => decide ((i : ℤ) * hop + fft_size - 1 < (n : ℤ)))
        let segments := idxs.map fun i : ℕ =>
          List.zipWith (fun z (w : ℝ) => z * (w : ℂ)) ((x.drop ((i : ℤ) * hop).toNat).take fft_size) win
        let spectra := segments.map dft
        let psd := (List.range fft_size).map fun j : ℕ =>
          ((spectra.map (fun row => Complex.abs (row.getD j 0) ^ 2)).sum / spectra.length) /
            win_power
        some (fftshift (psd.map (fun p => 10 * Real.logb 10 (p + 1e-12))))

/-! ## FAM spectral correlation function (`GPUSignalProcessor.fam_scf`) -/

/-- DFT along axis 0 of an `M x cols` matrix (`fft.fft(channels, axis=0)`):
entry `(k, j)` is `sum_l rows[l][j] exp(-2*pi*i*k*l/M)`. -/
def colDft (rows : List (List ℂ)) (cols : ℕ) : List (List ℂ) :=
  (List.range rows.length).map fun k : ℕ =>
    (List.range cols).map fun j : ℕ =>
      ((List.range rows.length).map fun l : ℕ =>
        (rows.getD l []).getD j 0 *
          Complex.exp (-(2 * Real.pi * Complex.I * k * l) / rows.length)).sum

/-- Channelization, cyclic FFT, magnitude and peak normalization of
`fam_scf` (steps 1-4 of the source).  `none` captures the Python
exceptions: hop 0, unknown window, and `max` of an empty magnitude matrix
(input shorter than `nfft`). -/
def fam_scf_mag (iq : List ℂ) (nfft : ℕ) (overlap : ℝ) (window : String) :
    Option (List (List ℝ)) :=
  let n := iq.length
  let hop : ℤ := pytrunc (nfft * (1 - overlap))
  if hop = 0 then none
  else
    match get_window window nfft with
    | none => none
    | some win =>
      let num_blocks : ℤ := max 1 (((n : ℤ) - nfft).fdiv hop + 1)
      let idxs := (List.range num_blocks.toNat).filter
        (fun i : ℕ => decide ((i : ℤ) * hop + nfft - 1 < (n : ℤ)))
      let blocks := idxs.map fun i : ℕ =>
        List.zipWith (fun z (w : ℝ) => z * (w : ℂ)) ((iq.drop ((i : ℤ) * hop).toNat).take nfft) win
      let channels := blocks.map dft
      let mag := (colDft channels nfft).map (fun row => row.map Complex.abs)
      match listMax mag.flatten with
      | none => none
      | some mx => some (if 0 < mx then mag.map (fun row => row.map (fun v => v / mx)) else mag)

/-- Embedding of `GPUSignalProcessor.fam_scf` (axes, cyclic profile and
the `|alpha| <= alpha_max * fs` row restriction on top of
`fam_scf_mag`). -/
def fam_scf (iq : List ℂ) (sample_rate : ℝ) (nfft : ℕ) (overlap α_max : ℝ)
    (window : String) : Option FamOut :=
  let hop : ℤ := pytrunc (nfft * (1 - overlap))
  match fam_scf_mag iq nfft overlap window with
  | none => none
  | some scf_mag =>
    let m := scf_mag.length
    let profile := scf_mag.map (fun row => (listMax row).getD 0)
    let cfreqs := fftfreq m (hop / sample_rate)
    let αhz := α_max * sample_rate
    some
      { scf_magnitude := ((cfreqs.zip scf_mag).filter (fun p => decide (|p.1| ≤ αhz))).map Prod.snd
        spectral_freqs := fftshift (fftfreq nfft (1 / sample_rate))
        cyclic_freqs := cfreqs.filter (fun f => decide (|f| ≤ αhz))
        cyclic_profile := ((cfreqs.zip profile).filter (fun p => decide (|p.1| ≤ αhz))).map Prod.snd }

/-! ## RF-DNA features (`GPUSignalProcessor.rf_dna_features` and the pure
Python `extract_rf_dna_features` of `rf_dna.py`) -/

/-- Adjusted phase increment of NumPy's `unwrap` with the default period
`2*pi` and discontinuity threshold `pi`. -/
def unwrapAdjDiff (d : ℝ) : ℝ :=
  let ddmod0 := fmod (d + Real.pi) (2 * Real.pi) - Real.pi
  let ddmod := if ddmod0 = -Real.pi ∧ 0 < d then Real.pi else ddmod0
  if |d| < Real.pi then d else ddmod

/-- Running part of `np.unwrap`: `pPrev` is the previous raw phase,
`uPrev` the previous unwrapped value. -/
def np_unwrap_aux (pPrev uPrev : ℝ) : List ℝ → List ℝ
  | [] => []
  | q :: rest =>
    (uPrev + unwrapAdjDiff (q - pPrev)) :: np_unwrap_aux q (uPrev + unwrapAdjDiff (q - pPrev)) rest

/-- NumPy's `unwrap` on a phase sequence. -/
def np_unwrap : List ℝ → List ℝ
  | [] => []
  | p :: ps => p :: np_unwrap_aux p p ps

/-- NumPy's `diff`: consecutive differences, one element shorter. -/
def diffR (l : List ℝ) : List ℝ := List.zipWith (fun a b => a - b) l.tail l

/-- Instantaneous amplitude `abs(x)` of an I/Q block. -/
def amplitudeSeries (iq : List ℂ) : List ℝ := iq.map Complex.abs

/-- Instantaneous phase `angle(x)` of an I/Q block (`atan2(im, re)`). -/
def phaseSeries (iq : List ℂ) : List ℝ := iq.map Complex.arg

/-- First differences of the unwrapped phase. -/
def freqDiffs (iq : List ℂ) : List ℝ := diffR (np_unwrap (phaseSeries iq))

/-- Instantaneous frequency with the last difference repeated so the
length matches the block length. -/
def frequencySeries (iq : List ℂ) : List ℝ := freqDiffs iq ++ [(freqDiffs iq).getLastD 0]

/-- The three RF-DNA domains in their canonical order: amplitude, phase,
instantaneous frequency. -/
def domainSeries (iq : List ℂ) : ℕ → List ℝ
  | 0 => amplitudeSeries iq
  | 1 => phaseSeries iq
  | _ => frequencySeries iq

/-- Region `r` of a domain series for a given region size. -/
def regionSlice (dom : List ℝ) (region_size r : ℕ) : List ℝ :=
  (dom.drop (r * region_size)).take region_size

/-- Per-region statistic triple of `rf_dna_features`: population variance,
skewness and excess kurtosis of the standardized region (standard
deviation regularized by `1e-10`). -/
def statVec (region : List ℝ) : List ℝ :=
  let μ := mean region
  let variance := mean (region.map (fun x => (x - μ) ^ 2))
  let std := Real.sqrt (variance + 1e-10)
  let zs := region.map (fun x => (x - μ) / std)
  [variance, mean (zs.map (fun z => z ^ 3)), mean (zs.map (fun z => z ^ 4)) - 3]

/-- Embedding of `GPUSignalProcessor.rf_dna_features` (the returned
`domain_features` dictionary is omitted; `features`, `feature_count` and
`regions` are the fields the service consumes).  `none` captures the
Python exceptions: division by zero for `regions = 0` and the
`frequency[-1]` indexing error on blocks of fewer than 2 samples. -/
def rf_dna_features (iq : List ℂ) (regions : ℕ) : Option RfDnaOut :=
  if regions = 0 then none
  else
    let region_size := iq.length / regions
    if (freqDiffs iq).isEmpty then none
    else
      let feats := ([amplitudeSeries iq, phaseSeries iq, frequencySeries iq].map fun dom =>
        let truncated := dom.take (regions * region_size)
        ((List.range regions).map fun r =>
          statVec ((truncated.drop (r * region_size)).take region_size)).flatten).flatten
      some ⟨feats, feats.length, regions⟩

/-- Exact result of the `while` wrapping loops of `rf_dna.py` (repeatedly
add or subtract `2*pi` until the value is within `[-pi, pi]`). -/
def whileWrapPi (d : ℝ) : ℝ :=
  if Real.pi < d then d - 2 * Real.pi * ⌈(d - Real.pi) / (2 * Real.pi)⌉
  else if d < -Real.pi then d + 2 * Real.pi * ⌈(-Real.pi - d) / (2 * Real.pi)⌉
  else d

/-- Result of the pure-Python `extract_rf_dna_features` (`features` and
`feature_count` keys). -/
structure PyRfDnaOut where
  features : List ℝ
  feature_count : ℕ

/-- Per-region statistics of `extract_rf_dna_features`: regions with
fewer than 2 samples are skipped (contribute nothing). -/
def pyRegionStats (region : List ℝ) : List ℝ :=
  if region.length < 2 then []
  else
    let μ := mean region
    let variance := mean (region.map (fun x => (x - μ) ^ 2))
    let std := if 0 < variance then Real.sqrt variance else 0
    let skewness := if 0 < std then mean (region.map (fun x => ((x - μ) / std) ^ 3)) else 0
    let kurtosis := if 0 < std then mean (region.map (fun x => ((x - μ) / std) ^ 4)) - 3 else 0
    [variance, skewness, kurtosis]

/-- Embedding of `extract_rf_dna_features` from `rf_dna.py`.  Blocks
shorter than the region count return the empty feature set; `none`
captures the `regions = 0` division by zero. -/
def extract_rf_dna_features (signal : List ℂ) (regions : ℕ) : Option PyRfDnaOut :=
  let n := signal.length
  if n < regions then some ⟨[], 0⟩
  else if regions = 0 then none
  else
    let amplitude := signal.map Complex.abs
    let phase := signal.map Complex.arg
    let frequency := List.zipWith (fun a b => whileWrapPi (a - b)) phase.tail phase
    let region_size := n / regions
    let featsOf := fun dom : List ℝ =>
      ((List.range regions).map fun r =>
        pyRegionStats ((dom.drop (r * region_size)).take
          (min ((r + 1) * region_size) dom.length - r * region_size))).flatten
    let all := featsOf amplitude ++ featsOf phase ++ featsOf frequency
    some ⟨all, all.length⟩

/-! ## Higher-order cumulants (`higher_order_cumulants` of
`gpu_processor.py` and `calculate_cumulants` of `signal_processing.py`) -/

/-- Cumulant pair as returned through the `cum4` / `cum6` dictionary keys
(`none` when the order was not requested). -/
structure CumulantsOut where
  cum4 : Option ℝ
  cum6 : Option ℝ

/-- Embedding of `GPUSignalProcessor.higher_order_cumulants`. -/
def higher_order_cumulants (iq : List ℂ) (orders : List ℕ) : CumulantsOut :=
  let centered := iq.map (fun z => z - cmean iq)
  let m2 := mean (centered.map (fun z => Complex.abs z ^ 2))
  let m4 := mean (centered.map (fun z => Complex.abs z ^ 4))
  let m6 := mean (centered.map (fun z => Complex.abs z ^ 6))
  ⟨if 4 ∈ orders then some (m4 - 3 * m2 ^ 2) else none,
   if 6 ∈ orders then some (m6 - 15 * m4 * m2 + 30 * m2 ^ 3) else none⟩

/-- Embedding of the pure-Python `calculate_cumulants` (mean built from
separate real and imaginary sums, as in the source). -/
def calculate_cumulants (signal : List ℂ) (orders : List ℕ) : CumulantsOut :=
  if signal.length = 0 then
    ⟨if 4 ∈ orders then some 0 else none, if 6 ∈ orders then some 0 else none⟩
  else
    let n := signal.length
    let meanC : ℂ := ⟨(signal.map Complex.re).sum / n, (signal.map Complex.im).sum / n⟩
    let centered := signal.map (fun s => s - meanC)
    let m2 := (centered.map (fun s => Complex.abs s ^ 2)).sum / n
    let m4 := (centered.map (fun s => Complex.abs s ^ 4)).sum / n
    let m6 := (centered.map (fun s => Complex.abs s ^ 6)).sum / n
    ⟨if 4 ∈ orders then some (m4 - 3 * m2 ^ 2) else none,
     if 6 ∈ orders then some (m6 - 15 * m4 * m2 + 30 * m2 ^ 3) else none⟩

/-- Central absolute moment `mean(|x - mean(x)|^k)`, the common notion of
`m_k` in both cumulant routines. -/
def centralMoment (x : List ℂ) (k : ℕ) : ℝ :=
  mean (x.map (fun z => Complex.abs (z - cmean x) ^ k))

/-! ## M2M4 SNR estimator (`M2M4Estimator.estimate`) -/

/-- Second moment of the magnitude, `mean(abs(x)^2)`. -/
def m2Of (iq : List ℂ) : ℝ := mean ((iq.map Complex.abs).map (fun m => m ^ 2))

/-- Fourth moment of the magnitude, `mean(abs(x)^4)`. -/
def m4Of (iq : List ℂ) : ℝ := mean ((iq.map Complex.abs).map (fun m => m ^ 4))

/-- Kurtosis correction `kappa_table.get(modulation.lower(), 1.0)`. -/
def kappaOf (modulation : String) : ℝ :=
  let m := lowerStr modulation
  if m = "bpsk" then 1
  else if m = "qpsk" then 1
  else if m = "8psk" then 1
  else if m = "16qam" then 1.32
  else if m = "64qam" then 1.38
  else if m = "ofdm" then 1
  else 1

/-- Denominator `kappa * m4 - m2^2` of the M2M4 formula. -/
def m2m4_denominator (iq : List ℂ) (modulation : String) : ℝ :=
  kappaOf modulation * m4Of iq - m2Of iq ^ 2

/-- SNR estimate record of `M2M4Estimator.estimate`. -/
structure SNREstimate where
  snr_db : ℝ
  signal_power : ℝ
  noise_power : ℝ
  method : String

/-- Embedding of `M2M4Estimator.estimate`. -/
def m2m4_estimate (iq : List ℂ) (modulation : String) : SNREstimate :=
  let m2 := m2Of iq
  let numerator := 2 * m2 ^ 2
  let denominator := m2m4_denominator iq modulation
  let snr_linear := if denominator ≤ 0 then 100 else Real.sqrt (numerator / denominator)
  { snr_db := 10 * Real.logb 10 snr_linear
    signal_power := m2 * snr_linear / (1 + snr_linear)
    noise_power := m2 / (1 + snr_linear)
    method := "m2m4" }

/-! ## Costas loops (`CostasLoop` of `demodulation_pipeline.py` and
`CostasLoop.loop_filter` of `costas_loop.py`) -/

/-- Phase-detector mode of the pipeline Costas loop (any other mode
string raises in the source). -/
inductive CostasMode where
  | bpsk
  | qpsk

/-- Loop gains and mode of the pipeline `CostasLoop`. -/
structure CostasParams where
  alpha : ℝ
  beta : ℝ
  mode : CostasMode

/-- Gain computation of `CostasLoop.__init__` (type-2 loop design). -/
def mkCostasLoop (loop_bandwidth damping : ℝ) (mode : CostasMode) : CostasParams :=
  let theta := loop_bandwidth / (damping + 1 / (4 * damping))
  let d := 1 + 2 * damping * theta + theta ^ 2
  ⟨4 * damping * theta / d, 4 * theta ^ 2 / d, mode⟩

/-- Embedding of `CostasLoop._phase_detector` (`np.sign` is
`Real.sign`). -/
def phase_detector (mode : CostasMode) (sample : ℂ) : ℝ :=
  match mode with
  | CostasMode.bpsk => sample.re * sample.im
  | CostasMode.qpsk => sample.re * Real.sign sample.im - sample.im * Real.sign sample.re

/-- State of the pipeline Costas loop. -/
structure CostasState where
  phase : ℝ
  freq : ℝ

/-- One iteration of the loop body of `CostasLoop.process`: rotate, detect
the error, update the frequency, then the phase (with the already updated
frequency), and wrap the phase into `(-pi, pi]` via `mod`. -/
def costas_step (p : CostasParams) (st : CostasState) (x : ℂ) : ℂ × CostasState :=
  let rotated := x * Complex.exp (-(Complex.I * (st.phase : ℂ)))
  let e := phase_detector p.mode rotated
  let freq' := st.freq + p.beta * e
  let phase' := fmod (st.phase + p.alpha * e + freq' + Real.pi) (2 * Real.pi) - Real.pi
  (rotated, ⟨phase', freq'⟩)

/-- Embedding of `CostasLoop.process`: corrected samples plus the phase
and frequency trajectories and the final loop state. -/
def costas_process (p : CostasParams) :
    List ℂ → CostasState → List ℂ × List ℝ × List ℝ × CostasState
  | [], st => ([], [], [], st)
  | x :: xs, st =>
    let r := costas_step p st x
    let rest := costas_process p xs r.2
    (r.1 :: rest.1, r.2.phase :: rest.2.1, r.2.freq :: rest.2.2.1, rest.2.2.2)

/-- NumPy's `clip`. -/
def np_clip (x lo hi : ℝ) : ℝ := min (max x lo) hi

/-- Embedding of `CostasLoop.loop_filter` from `costas_loop.py`: returns
the frequency correction together with the new (clipped) frequency
state. -/
def costas2_loop_filter (k1 k2 : ℝ) (frequency phase_error : ℝ) : ℝ × ℝ :=
  let frequency' := np_clip (frequency + k2 * phase_error) (-(1/2)) (1/2)
  (k1 * phase_error + frequency', frequency')

/-! ## Timing recovery (`TimingRecovery` of `demodulation_pipeline.py`) -/

/-- Loop parameters of `TimingRecovery.__init__`. -/
structure TimingParams where
  sps : ℝ
  alpha : ℝ
  beta : ℝ

/-- Gain computation of `TimingRecovery.__init__`. -/
def mkTimingRecovery (samples_per_symbol loop_bandwidth damping : ℝ) : TimingParams :=
  let theta := loop_bandwidth / (damping + 1 / (4 * damping))
  let d := 1 + 2 * damping * theta + theta ^ 2
  ⟨samples_per_symbol, 4 * damping * theta / d, 4 * theta ^ 2 / d⟩

/-- Signed list access used by `_interpolate`; the source only evaluates
it at indices its range guard keeps in bounds, so the junk value `0` is
never relied upon. -/
def getC (l : List ℂ) (i : ℤ) : ℂ :=
  if 0 ≤ i then l.getD i.toNat 0 else 0

/-- Embedding of `TimingRecovery._interpolate` (cubic Farrow structure
with the boundary clamp of the source). -/
def interpolate (samples : List ℂ) (mu : ℝ) (idx : ℤ) : ℂ :=
  if idx < 1 ∨ (samples.length : ℤ) - 2 ≤ idx then
    getC samples (max 0 (min idx ((samples.length : ℤ) - 1)))
  else
    let x0 := getC samples (idx - 1)
    let x1 := getC samples idx
    let x2 := getC samples (idx + 1)
    let x3 := getC samples (idx + 2)
    let a0 := x1
    let a1 := (x2 - x0) / 2
    let a2 := x0 - 5 * x1 / 2 + 2 * x2 - x3 / 2
    let a3 := (x3 - x0) / 6 + (x1 - x2) / 2
    a0 + (mu : ℂ) * (a1 + (mu : ℂ) * (a2 + (mu : ℂ) * a3))

/-- Clamp of the cursor advance:
`max(sps*0.5, min(sps*1.5, timing_step))`. -/
def clamp_step (sps step : ℝ) : ℝ := max (sps * 0.5) (min (sps * 1.5) step)

/-- Mutable state of the Gardner loop of `gardner_ted`. -/
structure GardnerState where
  sample_idx : ℝ
  timing_adj : ℝ
  prev_symbol : ℂ

/-- One iteration of the `while` body of `TimingRecovery.gardner_ted`;
the triple holds the emitted symbol, the timing error, and the clamped
cursor advance actually applied. -/
def gardner_step (p : TimingParams) (samples : List ℂ) (st : GardnerState) :
    (ℂ × ℝ × ℝ) × GardnerState :=
  let idx := pytrunc st.sample_idx
  let mu := st.sample_idx - idx
  let current := interpolate samples mu idx
  let mid_pos := st.sample_idx - p.sps / 2
  let mid_idx := pytrunc mid_pos
  let mid := interpolate samples (mid_pos - mid_idx) mid_idx
  let e := ((current - st.prev_symbol) * (starRingEnd ℂ) mid).re
  let timing_adj' := st.timing_adj + p.beta * e
  let step := clamp_step p.sps (p.sps + p.alpha * e + timing_adj')
  ((current, e, step), ⟨st.sample_idx + step, timing_adj', current⟩)

/-- The `while sample_idx < n - sps - 2` loop of `gardner_ted`, run with
explicit fuel (the source loop terminates because every advance is at
least `sps/2`). -/
def gardner_loop (p : TimingParams) (samples : List ℂ) :
    ℕ → GardnerState → List (ℂ × ℝ × ℝ)
  | 0, _ => []
  | fuel + 1, st =>
    if st.sample_idx < (samples.length : ℝ) - p.sps - 2 then
      (gardner_step p samples st).1 :: gardner_loop p samples fuel (gardner_step p samples st).2
    else []

/-- Entry point of `gardner_ted`: cursor starts at the first symbol
center `sps/2`, previous symbol `0`; the integrator `timing_adj` is
instance state, passed explicitly. -/
def gardner_ted (p : TimingParams) (samples : List ℂ) (timing_adj0 : ℝ) (fuel : ℕ) :
    List (ℂ × ℝ × ℝ) :=
  gardner_loop p samples fuel ⟨p.sps / 2, timing_adj0, 0⟩

/-- Index of the first minimum of a list (NumPy `argmin`). -/
def argmin_aux (best : ℝ) (bestIdx cur : ℕ) : List ℝ → ℕ
  | [] => bestIdx
  | x :: xs => if x < best then argmin_aux x cur (cur + 1) xs else argmin_aux best bestIdx (cur + 1) xs

/-- NumPy `argmin` (0 on the empty list, where NumPy raises). -/
def argminList : List ℝ → ℕ
  | [] => 0
  | x :: xs => argmin_aux x 0 1 xs

/-- Hard decision: nearest constellation point. -/
def nearest_point (constellation : List ℂ) (z : ℂ) : ℂ :=
  constellation.getD (argminList (constellation.map (fun c => Complex.abs (z - c)))) 0

/-- Default QPSK constellation of `mueller_muller_ted`. -/
def qpsk_constellation : List ℂ :=
  [⟨1, 1⟩, ⟨1, -1⟩, ⟨-1, 1⟩, ⟨-1, -1⟩].map (fun z => z / (Real.sqrt 2 : ℝ))

/-- Mutable state of the Mueller-Muller loop. -/
structure MMState where
  sample_idx : ℝ
  timing_adj : ℝ
  prev_symbol : ℂ
  prev_decision : ℂ

/-- One iteration of the `while` body of
`TimingRecovery.mueller_muller_ted`. -/
def mm_step (p : TimingParams) (samples constellation : List ℂ) (st : MMState) :
    (ℂ × ℝ × ℝ) × MMState :=
  let idx := pytrunc st.sample_idx
  let mu := st.sample_idx - idx
  let current := interpolate samples mu idx
  let decision := nearest_point constellation current
  let e := (st.prev_decision * (starRingEnd ℂ) current -
    decision * (starRingEnd ℂ) st.prev_symbol).re
  let timing_adj' := st.timing_adj + p.beta * e
  let step := clamp_step p.sps (p.sps + p.alpha * e + timing_adj')
  ((current, e, step), ⟨st.sample_idx + step, timing_adj', current, decision⟩)

/-- The fueled `while` loop of `mueller_muller_ted`. -/
def mm_loop (p : TimingParams) (samples constellation : List ℂ) :
    ℕ → MMState → List (ℂ × ℝ × ℝ)
  | 0, _ => []
  | fuel + 1, st =>
    if st.sample_idx < (samples.length : ℝ) - p.sps - 2 then
      (mm_step p samples constellation st).1 ::
        mm_loop p samples constellation fuel (mm_step p samples constellation st).2
    else []

/-- Entry point of `mueller_muller_ted`: cursor `sps/2`, previous symbol
`0`, previous decision `constellation[0]`. -/
def mueller_muller_ted (p : TimingParams) (samples constellation : List ℂ)
    (timing_adj0 : ℝ) (fuel : ℕ) : List (ℂ × ℝ × ℝ) :=
  mm_loop p samples constellation fuel ⟨p.sps / 2, timing_adj0, 0, constellation.getD 0 0⟩

/-! ## FAM, standalone variant (`FAMAnalyzer` of `fam_algorithm.py`) -/

/-- Embedding of `FAMAnalyzer.channelize`: overlapping Hamming-windowed
blocks, FFT per block.  `none` captures the Python exceptions: division
by zero at hop 0, and the `np.zeros` failure on a negative block count
(input shorter than `nfft` by more than one hop).  Unlike
`GPUSignalProcessor.fam_scf`, there is no `max(1, ...)` floor and no
bounds mask on the block indices. -/
def channelize (iq : List ℂ) (nfft : ℕ) (overlap : ℝ) : Option (List (List ℂ)) :=
  let hop : ℤ := pytrunc (nfft * (1 - overlap))
  if hop = 0 then none
  else
    let num_blocks : ℤ := ((iq.length : ℤ) - nfft).fdiv hop + 1
    if num_blocks < 0 then none
    else
      some ((List.range num_blocks.toNat).map fun i : ℕ =>
        dft (List.zipWith (fun z (w : ℝ) => z * (w : ℂ))
          ((iq.drop ((i : ℤ) * hop).toNat).take nfft) (np_hamming nfft)))

/-- Embedding of `FAMAnalyzer.compute_fam`: cyclic FFT of the channel
matrix, magnitude, unconditional peak normalization, cyclic profile, and
the `|alpha| <= alpha_max * fs` restriction.  Note both frequency axes
use the native sample period `1/fs` (`fftfreq(num_blocks, 1/fs)` for the
cyclic axis), and the spectral axis is not FFT-shifted — both unlike
`GPUSignalProcessor.fam_scf`. -/
def compute_fam (iq : List ℂ) (sample_rate alpha_max : ℝ) (nfft : ℕ) (overlap : ℝ) :
    Option FamOut :=
  match channelize iq nfft overlap with
  | none => none
  | some channels =>
    let num_blocks := channels.length
    let scf_mag0 := (colDft channels nfft).map (fun row => row.map Complex.abs)
    match listMax scf_mag0.flatten with
    | none => none
    | some mx =>
      let scf_mag := scf_mag0.map (fun row => row.map (fun v => v / mx))
      let cyclic_profile := scf_mag.map (fun row => (listMax row).getD 0)
      let cfreqs := fftfreq num_blocks (1 / sample_rate)
      let αhz := alpha_max * sample_rate
      some
        { scf_magnitude :=
            ((cfreqs.zip scf_mag).filter (fun p => decide (|p.1| ≤ αhz))).map Prod.snd
          spectral_freqs := fftfreq nfft (1 / sample_rate)
          cyclic_freqs := cfreqs.filter (fun f => decide (|f| ≤ αhz))
          cyclic_profile :=
            ((cfreqs.zip cyclic_profile).filter (fun p => decide (|p.1| ≤ αhz))).map Prod.snd }

/-! ## Helper lemmas -/

theorem jGet_jSet_self (k : String) (v : JVal) (o : RespObj) :
    jGet k (jSet k v o) = some v := by
  induction o with
  | nil => simp [jSet, jGet]
  | cons p rest ih =>
    by_cases h : p.1 = k <;> simp [jSet, jGet, h, ih]

/-- Shape of `handle_request` once the dispatch result is known: any
successfully dispatched command (known command, handler returned or
raised) yields a response carrying `processing_time_ms`. -/
theorem time_key_of_dispatch_some (proc : ProcBehavior) (req : Request)
    (s : ServiceStats) (tStart tNow tEnd : ℝ) (d : Except String RespObj)
    (hd : dispatch proc (lowerStr req.command) req.iq req.params s tNow = some d) :
    jGet "processing_time_ms" (handle_request proc req s tStart tNow tEnd).1 =
      some (JVal.num ((tEnd - tStart) * 1000)) := by
  rw [handle_request]
  rw [hd]
  cases d with
  | ok result => simpa using jGet_jSet_self "processing_time_ms" _ result
  | error e => simp [jGet]

/-! ## Claim C1 -/

/-- C1, counterexample: for a fresh service the very first
`{command: "ping"}` response carries a `stats` object whose
`requests_total` is 0, not at least 1 — `_handle_ping` snapshots
`stats.to_dict()` before `record_request` runs. -/
theorem C1_fresh_ping_stats_total_zero :
    respStatsTotal
        (handle_request cpuErrBehavior ⟨"ping", none, {}⟩ freshStats 0 0 1).1 =
      some 0 ∧ (0 : ℝ) < 1 := by
  have hcmd : lowerStr "ping" = "ping" := by decide
  refine ⟨?_, by norm_num⟩
  simp [handle_request, hcmd, dispatch, handlePing, statsToDict, freshStats,
    respStatsTotal, jSet, jGet, cpuErrBehavior]

/-- C1 (amended): the first ping response contains `status: "ok"` and a
numeric `processing_time_ms`, but its `stats.requests_total` equals the
number of requests completed *before* the ping (0 for a fresh service);
the ping itself is only counted in the statistics after the response
snapshot is built. -/
theorem C1_ping_response_and_stats_snapshot (proc : ProcBehavior) (p : ReqParams)
    (s : ServiceStats) (tStart tNow tEnd : ℝ) :
    jGet "status" (handle_request proc ⟨"ping", none, p⟩ s tStart tNow tEnd).1 =
        some (JVal.str "ok") ∧
    jGet "processing_time_ms"
        (handle_request proc ⟨"ping", none, p⟩ s tStart tNow tEnd).1 =
        some (JVal.num ((tEnd - tStart) * 1000)) ∧
    respStatsTotal (handle_request proc ⟨"ping", none, p⟩ s tStart tNow tEnd).1 =
        some s.requests_total ∧
    (handle_request proc ⟨"ping", none, p⟩ s tStart tNow tEnd).2.requests_total =
        s.requests_total + 1 := by
  have hcmd : lowerStr "ping" = "ping" := by decide
  refine ⟨?_, ?_, ?_, ?_⟩ <;>
    simp [handle_request, hcmd, dispatch, handlePing, statsToDict,
      respStatsTotal, jSet, jGet, record_request]

/-! ## Claim C2 -/

/-- C2, counterexample: an unknown command (`"foo"`) yields the bare
response `{error: "Unknown command: foo"}` with no `processing_time_ms`
field — `handle_request` returns early on the unknown-command branch. -/
theorem C2_unknown_command_lacks_time :
    jGet "processing_time_ms"
        (handle_request cpuErrBehavior ⟨"foo", none, {}⟩ freshStats 0 0 1).1 = none ∧
    (handle_request cpuErrBehavior ⟨"foo", none, {}⟩ freshStats 0 0 1).1 =
      [("error", JVal.str "Unknown command: foo")] := by
  have hcmd : lowerStr "foo" = "foo" := by decide
  constructor <;> simp [handle_request, hcmd, dispatch, jGet]

/-- C2 (amended): every response to a *known* command — whether the
handler succeeds, reports missing IQ data, or raises — contains the
`processing_time_ms` field; responses to unknown commands consist of the
error string alone and lack it. -/
theorem C2_known_commands_have_time (proc : ProcBehavior) (req : Request)
    (s : ServiceStats) (tStart tNow tEnd : ℝ)
    (h : lowerStr req.command ∈ knownCommands) :
    jGet "processing_time_ms" (handle_request proc req s tStart tNow tEnd).1 =
      some (JVal.num ((tEnd - tStart) * 1000)) := by
  simp only [knownCommands, List.mem_cons, List.not_mem_nil, or_false] at h
  rcases h with h | h | h | h | h | h | h | h | h | h <;>
    exact time_key_of_dispatch_some proc req s tStart tNow tEnd _
      (by rw [h]; rfl)

/-- C2 witness: the amended theorem applied to a concrete ping request. -/
theorem C2_known_commands_have_time_witness :
    lowerStr "ping" ∈ knownCommands ∧
    jGet "processing_time_ms"
        (handle_request cpuErrBehavior ⟨"ping", none, {}⟩ freshStats 0 0 1).1 =
      some (JVal.num ((1 - 0) * 1000)) :=
  ⟨by decide, C2_known_commands_have_time cpuErrBehavior ⟨"ping", none, {}⟩
    freshStats 0 0 1 (by decide)⟩

/-! ## Claim C10 -/

/-- C10: a request for an IQ-requiring command (`psd`, `fam`, `wvd`,
`cwd`, `rf_dna`, `cumulants`) without `iq_real`/`iq_imag` yields
`{error: "Missing IQ data"}` plus `processing_time_ms`, and is recorded
as a success: `requests_success` is incremented, `requests_failed`
unchanged. -/
theorem C10_missing_iq_is_success (proc : ProcBehavior) (c : String)
    (p : ReqParams) (s : ServiceStats) (tStart tNow tEnd : ℝ)
    (h : lowerStr c ∈ ["psd", "fam", "wvd", "cwd", "rf_dna", "cumulants"]) :
    (handle_request proc ⟨c, none, p⟩ s tStart tNow tEnd).1 =
      [("error", JVal.str "Missing IQ data"),
       ("processing_time_ms", JVal.num ((tEnd - tStart) * 1000))] ∧
    (handle_request proc ⟨c, none, p⟩ s tStart tNow tEnd).2.requests_success =
      s.requests_success + 1 ∧
    (handle_request proc ⟨c, none, p⟩ s tStart tNow tEnd).2.requests_failed =
      s.requests_failed := by
  simp only [List.mem_cons, List.not_mem_nil, or_false] at h
  rcases h with h | h | h | h | h | h <;>
    refine ⟨?_, ?_, ?_⟩ <;>
      simp [handle_request, h, dispatch, handlePsd, handleFam, handleWvd,
        handleCwd, handleRfDna, handleCumulants, jSet, record_request]

/-- C10 witness: the theorem applied to a concrete `psd` request with no
IQ payload. -/
theorem C10_missing_iq_is_success_witness :
    lowerStr "psd" ∈ ["psd", "fam", "wvd", "cwd", "rf_dna", "cumulants"] ∧
    (handle_request cpuErrBehavior ⟨"psd", none, {}⟩ freshStats 0 0 1).1 =
      [("error", JVal.str "Missing IQ data"),
       ("processing_time_ms", JVal.num ((1 - 0) * 1000))] :=
  ⟨by decide,
   (C10_missing_iq_is_success cpuErrBehavior "psd" {} freshStats 0 0 1 (by decide)).1⟩

/-! ## Claim C9 -/

theorem clamp_step_mem (sps x : ℝ) (h : 0 ≤ sps) :
    sps / 2 ≤ clamp_step sps x ∧ clamp_step sps x ≤ 3 * sps / 2 := by
  unfold clamp_step
  constructor
  · have e : sps / 2 = sps * 0.5 := by ring
    rw [e]
    exact le_max_left _ _
  · apply max_le
    · nlinarith
    · have h2 : min (sps * 1.5) x ≤ sps * 1.5 := min_le_left _ _
      nlinarith

theorem gardner_loop_step_bounds (p : TimingParams) (h : 0 ≤ p.sps)
    (samples : List ℂ) :
    ∀ (fuel : ℕ) (st : GardnerState), ∀ t ∈ gardner_loop p samples fuel st,
      p.sps / 2 ≤ t.2.2 ∧ t.2.2 ≤ 3 * p.sps / 2 := by
  intro fuel
  induction fuel with
  | zero => intro st t ht; simp [gardner_loop] at ht
  | succ n ih =>
    intro st t ht
    rw [gardner_loop] at ht
    split at ht
    · rcases List.mem_cons.mp ht with h1 | h1
      · subst h1; exact clamp_step_mem p.sps _ h
      · exact ih _ t h1
    · simp at ht

theorem mm_loop_step_bounds (p : TimingParams) (h : 0 ≤ p.sps)
    (samples constellation : List ℂ) :
    ∀ (fuel : ℕ) (st : MMState), ∀ t ∈ mm_loop p samples constellation fuel st,
      p.sps / 2 ≤ t.2.2 ∧ t.2.2 ≤ 3 * p.sps / 2 := by
  intro fuel
  induction fuel with
  | zero => intro st t ht; simp [mm_loop] at ht
  | succ n ih =>
    intro st t ht
    rw [mm_loop] at ht
    split at ht
    · rcases List.mem_cons.mp ht with h1 | h1
      · subst h1; exact clamp_step_mem p.sps _ h
      · exact ih _ t h1
    · simp at ht

/-- C9: in both the Gardner and the Mueller-Muller timing-recovery loops,
every cursor advance actually applied (the clamped
`sps + alpha*e + timing_adj`) lies within `[sps/2, 3*sps/2]`, at every
iteration, from any loop state. -/
theorem C9_timing_steps_clamped (p : TimingParams) (samples constellation : List ℂ)
    (fuelG fuelM : ℕ) (stG : GardnerState) (stM : MMState) (h : 0 ≤ p.sps) :
    (∀ t ∈ gardner_loop p samples fuelG stG,
      p.sps / 2 ≤ t.2.2 ∧ t.2.2 ≤ 3 * p.sps / 2) ∧
    (∀ t ∈ mm_loop p samples constellation fuelM stM,
      p.sps / 2 ≤ t.2.2 ∧ t.2.2 ≤ 3 * p.sps / 2) :=
  ⟨gardner_loop_step_bounds p h samples fuelG stG,
   mm_loop_step_bounds p h samples constellation fuelM stM⟩

/-- C9 witness: the theorem at the default loop design with nominal
`sps = 2` and a concrete sample block. -/
theorem C9_timing_steps_clamped_witness :
    0 ≤ (mkTimingRecovery 2 (1/100) (707/1000)).sps ∧
    ((∀ t ∈ gardner_loop (mkTimingRecovery 2 (1/100) (707/1000))
        [1, Complex.I, 1, Complex.I, 1, Complex.I] 4 ⟨1, 0, 0⟩,
      (mkTimingRecovery 2 (1/100) (707/1000)).sps / 2 ≤ t.2.2 ∧
        t.2.2 ≤ 3 * (mkTimingRecovery 2 (1/100) (707/1000)).sps / 2) ∧
    (∀ t ∈ mm_loop (mkTimingRecovery 2 (1/100) (707/1000))
        [1, Complex.I, 1, Complex.I, 1, Complex.I] qpsk_constellation 4 ⟨1, 0, 0, 0⟩,
      (mkTimingRecovery 2 (1/100) (707/1000)).sps / 2 ≤ t.2.2 ∧
        t.2.2 ≤ 3 * (mkTimingRecovery 2 (1/100) (707/1000)).sps / 2)) :=
  ⟨by norm_num [mkTimingRecovery],
   C9_timing_steps_clamped (mkTimingRecovery 2 (1/100) (707/1000))
     [1, Complex.I, 1, Complex.I, 1, Complex.I] qpsk_constellation 4 4
     ⟨1, 0, 0⟩ ⟨1, 0, 0, 0⟩ (by norm_num [mkTimingRecovery])⟩

/-! ## Claim C4 -/

/-- C4, counterexample: in `CostasLoop.process` of
`demodulation_pipeline.py` the frequency state is *not* clamped: with the
default loop design (bandwidth 0.01, damping 0.707) in BPSK mode, the
single sample `40 + 40i` pushes the frequency above `0.5` in one
update. -/
theorem C4_costas_freq_escapes :
    1/2 < (costas_process (mkCostasLoop 0.01 0.707 CostasMode.bpsk)
      [40 + 40 * Complex.I] ⟨0, 0⟩).2.2.2.freq := by
  simp only [costas_process, costas_step, phase_detector, mkCostasLoop]
  norm_num [Complex.ext_iff, Complex.add_re, Complex.add_im, Complex.mul_re,
    Complex.mul_im, Complex.I_re, Complex.I_im, Complex.exp_zero]

/-- C4 (amended): in the pipeline Costas loop the update order is as
specified — `freq' = freq + beta*e` first, then
`phase' = (phase + alpha*e + freq' + pi) mod 2pi - pi` using the already
updated frequency — but no clamp is applied there, so the frequency may
leave `(-0.5, 0.5)`; the clamping happens only in `loop_filter` of the
standalone `costas_loop.py`, which confines its frequency state to the
closed interval `[-0.5, 0.5]` via `np.clip`. -/
theorem C4_costas_update_order_and_clip (p : CostasParams) (st : CostasState)
    (x : ℂ) (k1 k2 f e : ℝ) :
    ((costas_step p st x).2.freq =
      st.freq + p.beta * phase_detector p.mode
        (x * Complex.exp (-(Complex.I * (st.phase : ℂ)))) ∧
     (costas_step p st x).2.phase =
      fmod (st.phase + p.alpha * phase_detector p.mode
          (x * Complex.exp (-(Complex.I * (st.phase : ℂ)))) +
        (costas_step p st x).2.freq + Real.pi) (2 * Real.pi) - Real.pi) ∧
    (-(1/2) ≤ (costas2_loop_filter k1 k2 f e).2 ∧
     (costas2_loop_filter k1 k2 f e).2 ≤ 1/2) := by
  refine ⟨⟨rfl, rfl⟩, ?_, ?_⟩
  · exact le_min (le_max_right _ _) (by norm_num)
  · exact min_le_right _ _

/-! ## Claim C7 -/

/-- C7: the M2M4 estimator saturates when the denominator
`kappa*m4 - m2^2` is nonpositive — linear SNR 100, i.e. 20 dB, with the
powers partitioned by `snr/(1+snr)` at `snr = 100` — and otherwise uses
`snr = sqrt(2*m2^2/(kappa*m4 - m2^2))` with the same partition. -/
theorem C7_m2m4_saturation (iq : List ℂ) (modulation : String) :
    (m2m4_denominator iq modulation ≤ 0 →
      m2m4_estimate iq modulation =
        ⟨20, m2Of iq * 100 / (1 + 100), m2Of iq / (1 + 100), "m2m4"⟩) ∧
    (0 < m2m4_denominator iq modulation →
      m2m4_estimate iq modulation =
        ⟨10 * Real.logb 10
            (Real.sqrt (2 * m2Of iq ^ 2 / m2m4_denominator iq modulation)),
         m2Of iq * Real.sqrt (2 * m2Of iq ^ 2 / m2m4_denominator iq modulation) /
           (1 + Real.sqrt (2 * m2Of iq ^ 2 / m2m4_denominator iq modulation)),
         m2Of iq / (1 + Real.sqrt (2 * m2Of iq ^ 2 / m2m4_denominator iq modulation)),
         "m2m4"⟩) := by
  constructor
  · intro h
    have hlog : Real.logb 10 100 = 2 := by
      rw [Real.logb, show (100 : ℝ) = 10 ^ (2 : ℕ) by norm_num, Real.log_pow]
      rw [div_eq_iff (by positivity : Real.log 10 ≠ 0)]
      push_cast
      ring
    simp only [m2m4_estimate, if_pos h]
    rw [hlog]
    norm_num
  · intro h
    simp only [m2m4_estimate, if_neg (not_le.mpr h)]

/-- C7 witness: a constant-modulus block hits the degenerate branch
(`denominator = 0`) and reports exactly 20 dB. -/
theorem C7_m2m4_saturation_witness :
    m2m4_denominator [1] "qpsk" ≤ 0 ∧
    m2m4_estimate [1] "qpsk" =
      ⟨20, m2Of [1] * 100 / (1 + 100), m2Of [1] / (1 + 100), "m2m4"⟩ := by
  have h : m2m4_denominator [1] "qpsk" ≤ 0 := by
    have hq : lowerStr "qpsk" = "qpsk" := by decide
    simp [m2m4_denominator, kappaOf, hq, m2Of, m4Of, mean]
  exact ⟨h, (C7_m2m4_saturation [1] "qpsk").1 h⟩

/-! ## Claim C8 -/

theorem list_sum_re (l : List ℂ) : l.sum.re = (l.map Complex.re).sum := by
  induction l with
  | nil => simp
  | cons a t ih => simp [ih]

theorem list_sum_im (l : List ℂ) : l.sum.im = (l.map Complex.im).sum := by
  induction l with
  | nil => simp
  | cons a t ih => simp [ih]

/-- Componentwise mean (real and imaginary sums divided separately, as in
`calculate_cumulants`) agrees with the complex mean `sum/len`. -/
theorem componentwise_mean_eq (signal : List ℂ) :
    (⟨(signal.map Complex.re).sum / signal.length,
      (signal.map Complex.im).sum / signal.length⟩ : ℂ) = cmean signal := by
  rw [cmean, Complex.div_natCast, list_sum_re, list_sum_im]

/-- C8: on every non-empty block the pure-Python `calculate_cumulants`
and the backend `higher_order_cumulants` agree exactly (over exact real
arithmetic), and both return
`cum4 = m4 - 3*m2^2`, `cum6 = m6 - 15*m4*m2 + 30*m2^3` for the central
absolute moments `m_k = mean(|x - mean x|^k)`. -/
theorem C8_cumulants_agree (signal : List ℂ) (orders : List ℕ) (h : signal ≠ []) :
    calculate_cumulants signal orders = higher_order_cumulants signal orders ∧
    higher_order_cumulants signal orders =
      ⟨if 4 ∈ orders then
          some (centralMoment signal 4 - 3 * centralMoment signal 2 ^ 2) else none,
       if 6 ∈ orders then
          some (centralMoment signal 6 - 15 * centralMoment signal 4 * centralMoment signal 2 +
            30 * centralMoment signal 2 ^ 3) else none⟩ := by
  have hn : signal.length ≠ 0 := by simpa using h
  have hm := componentwise_mean_eq signal
  constructor
  · simp only [calculate_cumulants, higher_order_cumulants, if_neg hn, hm]
    simp [mean, List.map_map, Function.comp]
  · simp only [higher_order_cumulants, centralMoment]
    simp [List.map_map, Function.comp_def]

/-- C8 witness: the refinement at the one-sample block `[1]` with the
default orders. -/
theorem C8_cumulants_agree_witness :
    ([(1 : ℂ)] ≠ []) ∧
    (calculate_cumulants [(1 : ℂ)] [4, 6] = higher_order_cumulants [(1 : ℂ)] [4, 6] ∧
     higher_order_cumulants [(1 : ℂ)] [4, 6] =
      ⟨if 4 ∈ [4, 6] then
          some (centralMoment [(1 : ℂ)] 4 - 3 * centralMoment [(1 : ℂ)] 2 ^ 2) else none,
       if 6 ∈ [4, 6] then
          some (centralMoment [(1 : ℂ)] 6 -
            15 * centralMoment [(1 : ℂ)] 4 * centralMoment [(1 : ℂ)] 2 +
            30 * centralMoment [(1 : ℂ)] 2 ^ 3) else none⟩) :=
  ⟨by simp, C8_cumulants_agree [(1 : ℂ)] [4, 6] (by simp)⟩

/-! ## Claim C3 -/

theorem np_hanning_length (M : ℕ) : (np_hanning M).length = M := by
  match M with
  | 0 => simp [np_hanning]
  | 1 => simp [np_hanning]
  | (m + 2) => simp [np_hanning]

theorem np_hamming_length (M : ℕ) : (np_hamming M).length = M := by
  match M with
  | 0 => simp [np_hamming]
  | 1 => simp [np_hamming]
  | (m + 2) => simp [np_hamming]

theorem np_blackman_length (M : ℕ) : (np_blackman M).length = M := by
  match M with
  | 0 => simp [np_blackman]
  | 1 => simp [np_blackman]
  | (m + 2) => simp [np_blackman]

theorem np_kaiser_length (M : ℕ) (beta : ℝ) : (np_kaiser M beta).length = M := by
  match M with
  | 0 => simp [np_kaiser]
  | 1 => simp [np_kaiser]
  | (m + 2) => simp [np_kaiser]

theorem get_window_length (w : String) (size : ℕ)
    (hw : w ∈ ["hann", "hamming", "blackman", "kaiser"]) :
    ∃ win, get_window w size = some win ∧ win.length = size := by
  simp only [List.mem_cons, List.not_mem_nil, or_false] at hw
  rcases hw with h | h | h | h <;> subst h
  · exact ⟨np_hanning size, rfl, np_hanning_length size⟩
  · exact ⟨np_hamming size, rfl, np_hamming_length size⟩
  · exact ⟨np_blackman size, rfl, np_blackman_length size⟩
  · exact ⟨np_kaiser size 14, rfl, np_kaiser_length size 14⟩

theorem dft_length (x : List ℂ) : (dft x).length = x.length := by
  simp [dft]

theorem fftshift_length {α : Type} (l : List α) : (fftshift l).length = l.length := by
  simp only [fftshift, List.length_append, List.length_drop, List.length_take]
  omega

/-- C3, counterexample: a block of 2 samples with `fft_size = 64`
(`overlap = 0`, Hann window) raises a NumPy broadcasting error inside
`psd_welch` — no PSD of length `fft_size` is produced for blocks shorter
than `fft_size`. -/
theorem C3_short_block_errors : psd_welch [1, 1] 64 0 "hann" false = none := by
  have hhop : pytrunc (((64 : ℕ) : ℝ) * (1 - 0)) = 64 := by
    norm_num [pytrunc]
  simp only [psd_welch, hhop, get_window, bmul]
  norm_num [np_hanning_length, List.length_take]
  decide

/-- C3 (amended): for every block of at least `fft_size` samples, every
overlap whose hop `int(fft_size*(1-overlap))` is at least 1, and every
valid window name, `psd_welch` returns a PSD of length exactly
`fft_size`; blocks shorter than `fft_size` instead raise a broadcasting
error. -/
theorem C3_psd_length (iq : List ℂ) (fft_size : ℕ) (overlap : ℝ)
    (window : String) (detrend : Bool)
    (hw : window ∈ ["hann", "hamming", "blackman", "kaiser"])
    (hhop : 1 ≤ pytrunc ((fft_size : ℝ) * (1 - overlap)))
    (hn : fft_size ≤ iq.length) :
    ∃ psd, psd_welch iq fft_size overlap window detrend = some psd ∧
      psd.length = fft_size := by
  obtain ⟨win, hwin, hlen⟩ := get_window_length window fft_size hw
  have hhop0 : pytrunc ((fft_size : ℝ) * (1 - overlap)) ≠ 0 := by omega
  simp only [psd_welch, hwin, if_neg hhop0]
  split
  · have hx : (if detrend then iq.map (fun z => z - cmean iq) else iq).length = iq.length := by
      split <;> simp
    have htake : ((if detrend then iq.map (fun z => z - cmean iq) else iq).take
        fft_size).length = win.length := by
      rw [List.length_take, hx, hlen]
      omega
    rw [List.length_take, hx] at htake
    have hb : bmul ((if detrend then iq.map (fun z => z - cmean iq) else iq).take fft_size)
        win = some (List.zipWith (fun z (r : ℝ) => z * (r : ℂ))
          ((if detrend then iq.map (fun z => z - cmean iq) else iq).take fft_size) win) := by
      rw [bmul, if_pos]
      rw [List.length_take, hx]
      exact htake
    rw [hb]
    refine ⟨_, rfl, ?_⟩
    simp only [fftshift_length, List.length_map, dft_length, List.length_zipWith,
      List.length_take, hx, hlen]
    omega
  · refine ⟨_, rfl, ?_⟩
    simp only [fftshift_length, List.length_map, List.length_range]

/-- C3 witness: the amended theorem at a concrete 2-sample block with
`fft_size = 1`. -/
theorem C3_psd_length_witness :
    "hann" ∈ ["hann", "hamming", "blackman", "kaiser"] ∧
    1 ≤ pytrunc (((1 : ℕ) : ℝ) * (1 - 0)) ∧
    (1 : ℕ) ≤ ([1, 1] : List ℂ).length ∧
    ∃ psd, psd_welch [1, 1] 1 0 "hann" false = some psd ∧ psd.length = 1 :=
  ⟨by decide, by norm_num [pytrunc], by decide,
   C3_psd_length [1, 1] 1 0 "hann" false (by decide) (by norm_num [pytrunc]) (by decide)⟩

/-! ## Claim C6 -/

theorem np_unwrap_aux_length (l : List ℝ) :
    ∀ p u, (np_unwrap_aux p u l).length = l.length := by
  induction l with
  | nil => intro p u; simp [np_unwrap_aux]
  | cons q t ih => intro p u; simp [np_unwrap_aux, ih]

theorem np_unwrap_length (l : List ℝ) : (np_unwrap l).length = l.length := by
  cases l with
  | nil => rfl
  | cons p ps => simp [np_unwrap, np_unwrap_aux_length]

theorem diffR_length (l : List ℝ) : (diffR l).length = l.length - 1 := by
  simp [diffR]

theorem freqDiffs_length (iq : List ℂ) : (freqDiffs iq).length = iq.length - 1 := by
  simp [freqDiffs, diffR_length, np_unwrap_length, phaseSeries]

theorem frequencySeries_length (iq : List ℂ) (h : 1 ≤ iq.length) :
    (frequencySeries iq).length = iq.length := by
  simp only [frequencySeries, List.length_append, freqDiffs_length, List.length_cons,
    List.length_nil]
  omega

theorem domainSeries_length (iq : List ℂ) (h : 1 ≤ iq.length) (d : ℕ) :
    (domainSeries iq d).length = iq.length := by
  match d with
  | 0 => simp [domainSeries, amplitudeSeries]
  | 1 => simp [domainSeries, phaseSeries]
  | (n + 2) => exact frequencySeries_length iq h

theorem statVec_length (region : List ℝ) : (statVec region).length = 3 := rfl

theorem flatten_length_uniform {α : Type} (L : List (List α)) (k : ℕ)
    (hk : ∀ l ∈ L, l.length = k) : L.flatten.length = L.length * k := by
  induction L with
  | nil => simp
  | cons a t ih =>
    simp only [List.flatten_cons, List.length_append, List.length_cons]
    rw [hk a (by simp), ih (fun l hl => hk l (by simp [hl]))]
    ring

theorem flatten_getD_uniform {α : Type} (d : α) (L : List (List α)) (k i j : ℕ)
    (hk : ∀ l ∈ L, l.length = k) (hi : i < L.length) (hj : j < k) :
    L.flatten.getD (i * k + j) d = (L.getD i []).getD j d := by
  induction L generalizing i with
  | nil => simp at hi
  | cons a t ih =>
    have ha : a.length = k := hk a (by simp)
    cases i with
    | zero =>
      have hz : 0 * k + j = j := by ring
      rw [hz, List.flatten_cons, List.getD_append _ _ _ _ (by omega)]
      rfl
    | succ i' =>
      rw [List.flatten_cons, List.getD_append_right _ _ _ _ (by nlinarith)]
      have hI : (i' + 1) * k + j - a.length = i' * k + j := by
        rw [ha]; ring_nf; omega
      rw [hI, ih i' (fun l hl => hk l (by simp [hl])) (by simpa using hi)]
      rfl

/-- Reshaping a truncated domain into regions: row `r` of the reshape is
the plain slice of the untruncated series. -/
theorem take_region_eq (dom : List ℝ) (R rs r : ℕ) (hr : r < R) :
    ((dom.take (R * rs)).drop (r * rs)).take rs = (dom.drop (r * rs)).take rs := by
  rw [List.take_drop, List.take_drop, List.take_take]
  have h1 : (r + 1) * rs ≤ R * rs := Nat.mul_le_mul_right rs hr
  have h2 : r * rs + rs = (r + 1) * rs := by ring
  have h3 : min (r * rs + rs) (R * rs) = r * rs + rs := by
    apply min_eq_left
    rw [h2]
    exact h1
  rw [h3]

theorem range_map_flatten_length (R : ℕ) (g : ℕ → List ℝ)
    (hg : ∀ i, (g i).length = 3) :
    (((List.range R).map g).flatten).length = R * 3 := by
  have hk' : ∀ l ∈ (List.range R).map g, l.length = 3 := by
    intro l hl
    obtain ⟨r', _, rfl⟩ := List.mem_map.mp hl
    exact hg r'
  rw [flatten_length_uniform _ 3 hk']
  simp

theorem range_map_flatten_getD (R r s : ℕ) (g : ℕ → List ℝ)
    (hg : ∀ i, (g i).length = 3) (hr : r < R) (hs : s < 3) :
    (((List.range R).map g).flatten).getD (r * 3 + s) 0 = (g r).getD s 0 := by
  have hk' : ∀ l ∈ (List.range R).map g, l.length = 3 := by
    intro l hl
    obtain ⟨r', _, rfl⟩ := List.mem_map.mp hl
    exact hg r'
  have hgr : ((List.range R).map g).getD r [] = g r := by
    rw [List.getD_eq_getElem _ _ (by simpa using hr)]
    simp
  rw [flatten_getD_uniform 0 _ 3 r s hk' (by simpa using hr) hs, hgr]

/-- C6 (amended): the backend `rf_dna_features` — on blocks of at least
`max(regions, 2)` samples with at least one region — produces exactly
`9*regions` features, ordered with the domain
{amplitude, phase, frequency} as the outer axis, the region index as the
middle axis, and the statistic {variance, skewness, excess kurtosis} as
the inner axis.  (The pure-Python `extract_rf_dna_features` does not obey
the claim: it skips regions with fewer than 2 samples.) -/
theorem C6_rf_dna_shape_and_order (iq : List ℂ) (regions : ℕ)
    (h1 : 1 ≤ regions) (_h2 : regions ≤ iq.length) (h3 : 2 ≤ iq.length) :
    ∃ out, rf_dna_features iq regions = some out ∧
      out.features.length = 9 * regions ∧
      out.feature_count = 9 * regions ∧
      ∀ d r s : ℕ, d < 3 → r < regions → s < 3 →
        out.features.getD (d * (3 * regions) + r * 3 + s) 0 =
          (statVec (regionSlice (domainSeries iq d) (iq.length / regions) r)).getD s 0 := by
  have hr0 : regions ≠ 0 := by omega
  have hfd : ¬((freqDiffs iq).isEmpty = true) := by
    rw [List.isEmpty_iff]
    intro h
    have hlen := freqDiffs_length iq
    rw [h] at hlen
    simp at hlen
    omega
  simp only [rf_dna_features]
  rw [if_neg hr0, if_neg hfd]
  have hblock : ∀ dom : List ℝ,
      (((List.range regions).map fun r =>
        statVec (((dom.take (regions * (iq.length / regions))).drop
          (r * (iq.length / regions))).take (iq.length / regions))).flatten).length =
        regions * 3 :=
    fun dom => range_map_flatten_length regions _ (fun i => statVec_length _)
  refine ⟨_, rfl, ?_, ?_, ?_⟩
  · simp only [List.map_cons, List.map_nil, List.flatten_cons, List.flatten_nil,
      List.append_nil, List.length_append, hblock]
    ring
  · simp only [List.map_cons, List.map_nil, List.flatten_cons, List.flatten_nil,
      List.append_nil, List.length_append, hblock]
    ring
  · intro d r s hd hr hs
    have hone : ∀ dom : List ℝ,
        ((((List.range regions).map fun r =>
          statVec (((dom.take (regions * (iq.length / regions))).drop
            (r * (iq.length / regions))).take (iq.length / regions))).flatten).getD
          (r * 3 + s) 0) =
        (statVec ((dom.drop (r * (iq.length / regions))).take
          (iq.length / regions))).getD s 0 := by
      intro dom
      rw [range_map_flatten_getD regions r s _ (fun i => statVec_length _) hr hs]
      rw [take_region_eq dom regions _ r hr]
    interval_cases d
    · have hz : 0 * (3 * regions) + r * 3 + s = r * 3 + s := by ring
      simp only [List.map_cons, List.map_nil, List.flatten_cons, List.flatten_nil,
        List.append_nil, hz]
      rw [List.getD_append _ _ _ _ (by rw [hblock]; omega), hone]
      rfl
    · have hz : 1 * (3 * regions) + r * 3 + s = regions * 3 + (r * 3 + s) := by ring
      simp only [List.map_cons, List.map_nil, List.flatten_cons, List.flatten_nil,
        List.append_nil, hz]
      rw [List.getD_append_right _ _ _ _ (by rw [hblock]; omega)]
      rw [hblock, Nat.add_sub_cancel_left]
      rw [List.getD_append _ _ _ _ (by rw [hblock]; omega), hone]
      rfl
    · have hz : 2 * (3 * regions) + r * 3 + s = regions * 3 + (regions * 3 + (r * 3 + s)) := by
        ring
      simp only [List.map_cons, List.map_nil, List.flatten_cons, List.flatten_nil,
        List.append_nil, hz]
      rw [List.getD_append_right _ _ _ _ (by rw [hblock]; omega)]
      rw [hblock, Nat.add_sub_cancel_left]
      rw [List.getD_append_right _ _ _ _ (by rw [hblock]; omega)]
      rw [hblock, Nat.add_sub_cancel_left]
      rw [hone]
      rfl

/-- C6, counterexample: the pure-Python `extract_rf_dna_features` on a
block of 2 samples with `regions = 2` (so the block has at least
`regions` samples) returns 0 features, not `9 * regions = 18`: every
region holds a single sample and is skipped by the `len(region) < 2`
guard. -/
theorem C6_py_rf_dna_empty :
    extract_rf_dna_features [1, Complex.I] 2 = some ⟨[], 0⟩ ∧ (0 : ℕ) ≠ 9 * 2 := by
  constructor
  · simp [extract_rf_dna_features, pyRegionStats, List.range_succ]
  · decide

/-- C6 witness: the amended theorem at a concrete 4-sample block with 2
regions. -/
theorem C6_rf_dna_shape_and_order_witness :
    1 ≤ 2 ∧ 2 ≤ ([1, Complex.I, 1, Complex.I] : List ℂ).length ∧
    2 ≤ ([1, Complex.I, 1, Complex.I] : List ℂ).length ∧
    (∃ out, rf_dna_features [1, Complex.I, 1, Complex.I] 2 = some out ∧
      out.features.length = 9 * 2 ∧
      out.feature_count = 9 * 2 ∧
      ∀ d r s : ℕ, d < 3 → r < 2 → s < 3 →
        out.features.getD (d * (3 * 2) + r * 3 + s) 0 =
          (statVec (regionSlice (domainSeries [1, Complex.I, 1, Complex.I] d)
            (([1, Complex.I, 1, Complex.I] : List ℂ).length / 2) r)).getD s 0) :=
  ⟨by norm_num, by simp, by simp,
   C6_rf_dna_shape_and_order [1, Complex.I, 1, Complex.I] 2
     (by norm_num) (by simp) (by simp)⟩

/-! ## Claim C5 -/

theorem fftfreq_length (m : ℕ) (d : ℝ) : (fftfreq m d).length = m := by
  simp [fftfreq]

theorem zip_filter_map_snd_length {α β : Type} (p : α → Bool) (l1 : List α)
    (l2 : List β) (h : l1.length = l2.length) :
    ((((l1.zip l2).filter (fun q => p q.1)).map Prod.snd)).length = (l1.filter p).length := by
  induction l1 generalizing l2 with
  | nil => cases l2 <;> simp
  | cons a t ih =>
    cases l2 with
    | nil => simp at h
    | cons b t2 =>
      simp only [List.zip_cons_cons, List.filter_cons]
      by_cases hp : p a <;>
        simp [hp, ih t2 (by simpa using h)]

theorem listMax_eq_none_iff (l : List ℝ) : listMax l = none ↔ l = [] := by
  cases l <;> simp [listMax]

/-- Success and row count of the FAM channelization/normalization stage:
with a valid window, positive hop, and a block of at least `nfft`
samples, the bounds mask drops nothing, so the number of rows is exactly
`floor((N - nfft)/hop) + 1`. -/
theorem fam_scf_mag_some (iq : List ℂ) (nfft : ℕ) (overlap : ℝ) (window : String)
    (hw : window ∈ ["hann", "hamming", "blackman", "kaiser"])
    (hhop : 1 ≤ pytrunc ((nfft : ℝ) * (1 - overlap)))
    (hn : nfft ≤ iq.length) (h1 : 1 ≤ nfft) :
    ∃ raw, fam_scf_mag iq nfft overlap window = some raw ∧
      raw.length =
        (((iq.length : ℤ) - nfft).fdiv (pytrunc ((nfft : ℝ) * (1 - overlap))) + 1).toNat := by
  obtain ⟨win, hwin, hwlen⟩ := get_window_length window nfft hw
  have hhop0 : ¬(pytrunc ((nfft : ℝ) * (1 - overlap)) = 0) := by omega
  have hq0 : 0 ≤ ((iq.length : ℤ) - nfft).fdiv (pytrunc ((nfft : ℝ) * (1 - overlap))) :=
    Int.fdiv_nonneg (by omega) (by omega)
  have hmax : max 1 (((iq.length : ℤ) - nfft).fdiv (pytrunc ((nfft : ℝ) * (1 - overlap))) + 1) =
      ((iq.length : ℤ) - nfft).fdiv (pytrunc ((nfft : ℝ) * (1 - overlap))) + 1 :=
    max_eq_right (by omega)
  have hkeep : ∀ i ∈ List.range
      ((((iq.length : ℤ) - nfft).fdiv (pytrunc ((nfft : ℝ) * (1 - overlap))) + 1)).toNat,
      ((fun i : ℕ => decide ((i : ℤ) * pytrunc ((nfft : ℝ) * (1 - overlap)) + nfft - 1 <
        (iq.length : ℤ))) i) = true := by
    intro i hi
    rw [List.mem_range] at hi
    apply decide_eq_true
    have hiq : (i : ℤ) ≤ ((iq.length : ℤ) - nfft).fdiv (pytrunc ((nfft : ℝ) * (1 - overlap))) := by
      omega
    have hle : ((iq.length : ℤ) - nfft).fdiv (pytrunc ((nfft : ℝ) * (1 - overlap))) *
        pytrunc ((nfft : ℝ) * (1 - overlap)) ≤ (iq.length : ℤ) - nfft := by
      rw [Int.fdiv_eq_ediv _ (by omega)]
      have he := Int.ediv_add_emod ((iq.length : ℤ) - nfft) (pytrunc ((nfft : ℝ) * (1 - overlap)))
      have hm := Int.emod_nonneg ((iq.length : ℤ) - nfft) hhop0
      nlinarith [he, hm]
    have hmul : (i : ℤ) * pytrunc ((nfft : ℝ) * (1 - overlap)) ≤
        ((iq.length : ℤ) - nfft).fdiv (pytrunc ((nfft : ℝ) * (1 - overlap))) *
          pytrunc ((nfft : ℝ) * (1 - overlap)) :=
      mul_le_mul_of_nonneg_right hiq (by omega)
    have h1' : (1 : ℤ) ≤ nfft := by exact_mod_cast h1
    omega
  have hfilter : (List.range
      ((((iq.length : ℤ) - nfft).fdiv (pytrunc ((nfft : ℝ) * (1 - overlap))) + 1)).toNat).filter
      (fun i : ℕ => decide ((i : ℤ) * pytrunc ((nfft : ℝ) * (1 - overlap)) + nfft - 1 <
        (iq.length : ℤ))) =
      List.range ((((iq.length : ℤ) - nfft).fdiv (pytrunc ((nfft : ℝ) * (1 - overlap))) + 1)).toNat :=
    List.filter_eq_self.mpr hkeep
  simp only [fam_scf_mag, hwin, if_neg hhop0, hmax, hfilter]
  have hmaglen : ∀ (rows : List (List ℂ)), ∀ l ∈ (colDft rows nfft).map (fun row =>
      row.map Complex.abs), l.length = nfft := by
    intro rows l hl
    obtain ⟨row, hrow, rfl⟩ := List.mem_map.mp hl
    obtain ⟨k, hk, rfl⟩ := List.mem_map.mp hrow
    simp [colDft]
  have hMpos : 1 ≤ ((((iq.length : ℤ) - nfft).fdiv (pytrunc ((nfft : ℝ) * (1 - overlap))) +
      1)).toNat := by omega
  have hflat_ne : ∀ (rows : List (List ℂ)),
      rows.length = ((((iq.length : ℤ) - nfft).fdiv (pytrunc ((nfft : ℝ) * (1 - overlap))) +
        1)).toNat →
      ((colDft rows nfft).map (fun row => row.map Complex.abs)).flatten = [] → False := by
    intro rows hrows hc
    have hl := flatten_length_uniform _ nfft (hmaglen rows)
    rw [hc] at hl
    simp only [List.length_nil, List.length_map, colDft, List.length_range] at hl
    rw [hrows] at hl
    have hpos : 0 < ((((iq.length : ℤ) - nfft).fdiv (pytrunc ((nfft : ℝ) * (1 - overlap))) +
        1)).toNat * nfft := Nat.mul_pos (by omega) (by omega)
    omega
  split
  · rename_i heq
    rw [listMax_eq_none_iff] at heq
    exact absurd heq (fun hc => hflat_ne _ (by simp) hc)
  · rename_i mx heq
    refine ⟨_, rfl, ?_⟩
    split <;> simp [colDft]

set_option maxHeartbeats 1600000 in
/-- C5, counterexample: the standalone `FAMAnalyzer.compute_fam` of
`fam_algorithm.py` builds its cyclic axis as
`fftfreq(num_blocks, 1/fs)` — the native sample period — not
`fftfreq(M, hop/fs)`.  On a 4-sample block with `nfft = 2`,
`overlap = 0` (so `hop = 2` and `M = 2` channelized blocks), `fs = 1`
and `alpha_max = 1`, `compute_fam` returns the cyclic axis
`[0, -1/2]`, while the hop-spaced axis the claim asserts is
`[0, -1/4]`. -/
theorem C5_py_fam_native_axis :
    (compute_fam [1, 1, 1, 1] 1 1 2 0).map FamOut.cyclic_freqs = some [0, -(1/2)] ∧
    (fftfreq 2 (((pytrunc (((2 : ℕ) : ℝ) * (1 - 0)) : ℤ) : ℝ) / 1)).filter
      (fun f => decide (|f| ≤ 1 * 1)) = [0, -(1/4)] ∧
    ([0, -(1/2)] : List ℝ) ≠ [0, -(1/4)] := by
  have hhop : pytrunc (((2 : ℕ) : ℝ) * (1 - 0)) = 2 := by norm_num [pytrunc]
  have hnb : ((([1, 1, 1, 1] : List ℂ).length : ℤ) - (2 : ℕ)).fdiv 2 + 1 = 2 := by decide
  have hch : channelize [1, 1, 1, 1] 2 0 =
      some ((List.range 2).map fun i : ℕ =>
        dft (List.zipWith (fun z (w : ℝ) => z * (w : ℂ))
          ((([1, 1, 1, 1] : List ℂ).drop ((i : ℤ) * 2).toNat).take 2) (np_hamming 2))) := by
    have h2 : (2 : ℤ).toNat = 2 := rfl
    simp only [channelize, hhop, hnb, h2]
    norm_num
  refine ⟨?_, ?_, by norm_num⟩
  · rw [show ((List.range 2).map fun i : ℕ =>
        dft (List.zipWith (fun z (w : ℝ) => z * (w : ℂ))
          ((([1, 1, 1, 1] : List ℂ).drop ((i : ℤ) * 2).toNat).take 2) (np_hamming 2))) =
        [dft (List.zipWith (fun z (w : ℝ) => z * (w : ℂ))
          ((([1, 1, 1, 1] : List ℂ).drop ((0 : ℤ) * 2).toNat).take 2) (np_hamming 2)),
         dft (List.zipWith (fun z (w : ℝ) => z * (w : ℂ))
          ((([1, 1, 1, 1] : List ℂ).drop ((1 : ℤ) * 2).toNat).take 2) (np_hamming 2))]
      from by simp [List.range_succ]] at hch
    simp only [compute_fam, hch, colDft, List.length_cons, List.length_nil,
      List.range_succ, List.range_zero, List.map_nil, List.map_cons, List.map_append,
      List.flatten_cons, List.flatten_nil, List.append_nil, List.nil_append,
      List.cons_append, listMax, Option.map_some]
    norm_num [fftfreq, List.range_succ, List.filter, abs_le]
  · rw [hhop]
    norm_num [fftfreq, List.range_succ, List.filter, abs_le]

/-- C5 (amended): the backend `GPUSignalProcessor.fam_scf` — for a block
of at least `nfft` samples, positive hop and valid window — has its
cyclic-frequency axis equal to `fftfreq(M, hop/fs)` with
`M = floor((N - nfft)/hop) + 1` the number of channelized blocks — hop
spacing, not the native sample period — and its returned SCF rows are
exactly those whose cyclic frequency satisfies
`|alpha| <= alpha_max * fs`.  (The standalone `FAMAnalyzer.compute_fam`
instead spaces its cyclic axis by the native sample period `1/fs`.) -/
theorem C5_fam_cyclic_axis (iq : List ℂ) (fs : ℝ) (nfft : ℕ) (overlap α_max : ℝ)
    (window : String)
    (hw : window ∈ ["hann", "hamming", "blackman", "kaiser"])
    (hhop : 1 ≤ pytrunc ((nfft : ℝ) * (1 - overlap)))
    (hn : nfft ≤ iq.length) (h1 : 1 ≤ nfft) :
    ∃ out raw, fam_scf iq fs nfft overlap α_max window = some out ∧
      fam_scf_mag iq nfft overlap window = some raw ∧
      raw.length =
        (((iq.length : ℤ) - nfft).fdiv (pytrunc ((nfft : ℝ) * (1 - overlap))) + 1).toNat ∧
      out.cyclic_freqs =
        (fftfreq raw.length ((pytrunc ((nfft : ℝ) * (1 - overlap)) : ℤ) / fs)).filter
          (fun f => decide (|f| ≤ α_max * fs)) ∧
      out.scf_magnitude =
        (((fftfreq raw.length ((pytrunc ((nfft : ℝ) * (1 - overlap)) : ℤ) / fs)).zip raw).filter
          (fun p => decide (|p.1| ≤ α_max * fs))).map Prod.snd ∧
      out.spectral_freqs = fftshift (fftfreq nfft (1 / fs)) ∧
      out.scf_magnitude.length = out.cyclic_freqs.length := by
  obtain ⟨raw, hraw, hlen⟩ := fam_scf_mag_some iq nfft overlap window hw hhop hn h1
  refine
    ⟨{ scf_magnitude :=
        (((fftfreq raw.length ((pytrunc ((nfft : ℝ) * (1 - overlap)) : ℤ) / fs)).zip raw).filter
          (fun p => decide (|p.1| ≤ α_max * fs))).map Prod.snd
       spectral_freqs := fftshift (fftfreq nfft (1 / fs))
       cyclic_freqs :=
        (fftfreq raw.length ((pytrunc ((nfft : ℝ) * (1 - overlap)) : ℤ) / fs)).filter
          (fun f => decide (|f| ≤ α_max * fs))
       cyclic_profile :=
        (((fftfreq raw.length ((pytrunc ((nfft : ℝ) * (1 - overlap)) : ℤ) / fs)).zip
            (raw.map (fun row => (listMax row).getD 0))).filter
          (fun p => decide (|p.1| ≤ α_max * fs))).map Prod.snd },
     raw, ?_, hraw, hlen, rfl, rfl, rfl, ?_⟩
  · simp only [fam_scf, hraw]
  · have hz := zip_filter_map_snd_length (fun f => decide (|f| ≤ α_max * fs))
      (fftfreq raw.length ((pytrunc ((nfft : ℝ) * (1 - overlap)) : ℤ) / fs)) raw
      (fftfreq_length raw.length _)
    exact hz

/-- C5 witness: the theorem at a concrete 2-sample block with `nfft = 1`,
unit hop and Hamming window. -/
theorem C5_fam_cyclic_axis_witness :
    "hamming" ∈ ["hann", "hamming", "blackman", "kaiser"] ∧
    1 ≤ pytrunc (((1 : ℕ) : ℝ) * (1 - 0)) ∧
    (1 : ℕ) ≤ ([1, 1] : List ℂ).length ∧
    ∃ out raw, fam_scf [1, 1] 1 1 0 (1/2) "hamming" = some out ∧
      fam_scf_mag [1, 1] 1 0 "hamming" = some raw ∧
      raw.length =
        ((((([1, 1] : List ℂ).length : ℤ)) - (1 : ℕ)).fdiv
          (pytrunc (((1 : ℕ) : ℝ) * (1 - 0))) + 1).toNat ∧
      out.cyclic_freqs =
        (fftfreq raw.length ((pytrunc (((1 : ℕ) : ℝ) * (1 - 0)) : ℤ) / 1)).filter
          (fun f => decide (|f| ≤ 1/2 * 1)) ∧
      out.scf_magnitude =
        (((fftfreq raw.length ((pytrunc (((1 : ℕ) : ℝ) * (1 - 0)) : ℤ) / 1)).zip raw).filter
          (fun p => decide (|p.1| ≤ 1/2 * 1))).map Prod.snd ∧
      out.spectral_freqs = fftshift (fftfreq 1 (1 / 1)) ∧
      out.scf_magnitude.length = out.cyclic_freqs.length :=
  ⟨by decide, by norm_num [pytrunc], by decide,
   C5_fam_cyclic_axis [1, 1] 1 1 0 (1/2) "hamming" (by decide)
     (by norm_num [pytrunc]) (by decide) (by decide)⟩

end

end SecondSight

